import Mathlib

/-!
Shallow embedding of the LawBrief AI clause segmentation, classification and
risk-scoring pipeline (src/backend/clause_extractor.py, src/backend/risk_detector.py,
src/backend/utils.py), together with theorems settling the specification claims.

Modelling conventions:
* Python floats are modelled as exact rationals (`ℚ`); all constants in the code
  are decimal literals, so the arithmetic of the scoring formulas is exact.
* The two sentence-transformer similarity signals are injected as oracle
  functions (`sim`, `sem`): the code treats the model as an opaque service and
  every claim quantifies over its output.
* Python strings are modelled as Lean `String`; Python `len`, slicing and
  `str.lower`/`str.strip` operate on characters, as embedded below.
-/

namespace LawBrief

/-- Whitespace set of Python `str.strip()` (ASCII part, which is all that the
pipeline's texts use): space, tab, newline, carriage return, vertical tab, form feed. -/
def pyIsSpace (c : Char) : Bool :=
  c = ' ' || c = '\t' || c = '\n' || c = '\r' || c = '\x0b' || c = '\x0c'

/-- Python `str.strip()`: remove leading and trailing whitespace characters. -/
def pyStrip (s : String) : String :=
  ⟨((s.data.dropWhile pyIsSpace).reverse.dropWhile pyIsSpace).reverse⟩

/-- Python `str.strip(chars)`: remove every leading and trailing character that
belongs to the character set `chars` (note: a set of characters, not a substring). -/
def pyStripChars (chars : String) (s : String) : String :=
  ⟨((s.data.dropWhile (chars.data.contains ·)).reverse.dropWhile
      (chars.data.contains ·)).reverse⟩

/-- Python `str.lower()` (ASCII case folding; the lexicon and category names are ASCII). -/
def pyLower (s : String) : String :=
  ⟨s.data.map Char.toLower⟩

/-! ### A small regex evaluator

`re.search` in `risk_detector._keyword_risk_score` is applied to 25 fixed
patterns, all built from literals, alternation, optional groups and the
word-boundary assertion. The evaluator below covers exactly these constructs. -/

/-- Abstract syntax of the regex fragment used by the risk lexicon: literals,
optional group `(...)?`, alternation, concatenation and the boundary assertion. -/
inductive Pat where
  | lit (s : String)
  | opt (p : Pat)
  | alt2 (p q : Pat)
  | seq2 (p q : Pat)
  | wb
deriving Repr

/-- Regex word character (`\w`): letters, digits and underscore. -/
def isWordChar (c : Char) : Bool :=
  c.isAlphanum || c = '_'

/-- Whether position `i` of the character list holds a word character
(out-of-range counts as a non-word character). -/
def wordAt (cs : List Char) (i : Nat) : Bool :=
  match cs[i]? with
  | some c => isWordChar c
  | none => false

/-- The regex word-boundary assertion at position `i`: exactly one of the
neighbouring positions `i-1`, `i` holds a word character. -/
def boundaryAt (cs : List Char) (i : Nat) : Bool :=
  (if i = 0 then false else wordAt cs (i - 1)) != wordAt cs i

/-- All end positions of a match of `p` starting at position `i` of `cs`. -/
def matchEnds (cs : List Char) : Pat → Nat → List Nat
  | .lit s, i => if s.data.isPrefixOf (cs.drop i) then [i + s.length] else []
  | .opt p, i => matchEnds cs p i ++ [i]
  | .alt2 p q, i => matchEnds cs p i ++ matchEnds cs q i
  | .seq2 p q, i => (matchEnds cs p i).flatMap (fun j => matchEnds cs q j)
  | .wb, i => if boundaryAt cs i then [i] else []

/-- Python `re.search`: does `p` match at some position of `cs`? -/
def reSearch (p : Pat) (cs : List Char) : Bool :=
  (List.range (cs.length + 1)).any (fun i => !(matchEnds cs p i).isEmpty)

/-- The pattern `\bs\b` for a literal phrase `s`. -/
def wbPhrase (s : String) : Pat :=
  .seq2 .wb (.seq2 (.lit s) .wb)

/-- The risk lexicon `RISK_KEYWORDS` of `risk_detector.py`: each entry keeps the
raw pattern key (used verbatim for `matched_terms`), the pattern's syntax tree,
and the weight. Order is the dict insertion order of the source. -/
def RISK_KEYWORDS : List (String × Pat × ℚ) := [
  ("\\bindemnif(y|ication|ies)?\\b",
    (.seq2 .wb (.seq2 (.lit "indemnif")
      (.seq2 (.opt (.alt2 (.lit "y") (.alt2 (.lit "ication") (.lit "ies")))) .wb))), 1),
  ("\\bliquidated damages\\b", wbPhrase "liquidated damages", 0.9),
  ("\\blimit(ed)? liability\\b",
    (.seq2 .wb (.seq2 (.lit "limit")
      (.seq2 (.opt (.lit "ed")) (.seq2 (.lit " liability") .wb)))), 0.9),
  ("\\bunlimited liability\\b", wbPhrase "unlimited liability", 1),
  ("\\bexclusive jurisdiction\\b", wbPhrase "exclusive jurisdiction", 0.6),
  ("\\bwithout liability\\b", wbPhrase "without liability", 0.8),
  ("\\bautomatic renewal\\b", wbPhrase "automatic renewal", 0.7),
  ("\\bnon[- ]refundable\\b",
    (.seq2 .wb (.seq2 (.lit "non")
      (.seq2 (.alt2 (.lit "-") (.lit " ")) (.seq2 (.lit "refundable") .wb)))), 0.6),
  ("\\birrevocable\\b", wbPhrase "irrevocable", 0.6),
  ("\\bperpetual\\b", wbPhrase "perpetual", 0.7),
  ("\\bwaive( right(s)?)?\\b",
    (.seq2 .wb (.seq2 (.lit "waive")
      (.seq2 (.opt (.seq2 (.lit " right") (.opt (.lit "s")))) .wb))), 0.8),
  ("\\bhold harmless\\b", wbPhrase "hold harmless", 1),
  ("\\bas is\\b", wbPhrase "as is", 0.5),
  ("\\bno warranty\\b", wbPhrase "no warranty", 0.7),
  ("\\bfinal sale\\b", wbPhrase "final sale", 0.5),
  ("\\bbinding arbitration\\b", wbPhrase "binding arbitration", 0.7),
  ("\\bclass action waiver\\b", wbPhrase "class action waiver", 0.9),
  ("\\battorney(’s|s)? fees?\\b",
    (.seq2 .wb (.seq2 (.lit "attorney")
      (.seq2 (.opt (.alt2 (.lit "’s") (.lit "s")))
        (.seq2 (.lit " fee") (.seq2 (.opt (.lit "s")) .wb))))), 0.5),
  ("\\bconsequential damages\\b", wbPhrase "consequential damages", 0.8),
  ("\\bpunitive damages\\b", wbPhrase "punitive damages", 0.9),
  ("\\bspecific performance\\b", wbPhrase "specific performance", 0.6),
  ("\\bpenalt(y|ies)\\b",
    (.seq2 .wb (.seq2 (.lit "penalt") (.seq2 (.alt2 (.lit "y") (.lit "ies")) .wb))), 0.7),
  ("\\bforfeit\\b", wbPhrase "forfeit", 0.6),
  ("\\bbreach\\b", wbPhrase "breach", 0.5),
  ("\\bdefault\\b", wbPhrase "default", 0.5)]

/-- Whether a lexicon entry matches the text (text lowercased; all lexicon
literals are lowercase, which models the IGNORECASE flag of the source). -/
def entryMatches (entry : String × Pat × ℚ) (text : String) : Bool :=
  reSearch entry.2.1 (text.data.map Char.toLower)

/-- The loop body of `_keyword_risk_score`: accumulated `matched_terms`,
`total_weight` and `high_weight_hits`. -/
def keywordStep (text : String) (st : List String × ℚ × ℕ) (entry : String × Pat × ℚ) :
    List String × ℚ × ℕ :=
  if entryMatches entry text then
    (st.1 ++ [pyStripChars "\\b" entry.1], st.2.1 + entry.2.2,
      if (0.8 : ℚ) ≤ entry.2.2 then st.2.2 + 1 else st.2.2)
  else st

/-- `risk_detector._keyword_risk_score`: weighted presence-based keyword score,
normalized by 5 and capped at 1, with a +0.1 boost (capped at 1) when at least
two matched patterns have weight ≥ 0.8. Returns `(keyword_score, matched_terms)`;
each matched term is the raw pattern key passed through Python `str.strip("\x5cb")`. -/
def keyword_risk_score (text : String) : ℚ × List String :=
  let st := RISK_KEYWORDS.foldl (keywordStep text) ([], 0, 0)
  let keyword_score := min (st.2.1 / 5) 1
  (if 2 ≤ st.2.2 then min (keyword_score + 0.1) 1 else keyword_score, st.1)

/-- `risk_detector._score_to_level`. -/
def score_to_level (score : ℚ) : String :=
  if score < 0.3 then "Low" else if score < 0.6 then "Medium" else "High"

/-- `CLAUSE_TYPE_WEIGHTS` of `risk_detector.py`. -/
def CLAUSE_TYPE_WEIGHTS : List (String × ℚ) :=
  [("liability", 1), ("indemnification", 1), ("termination", 0.7), ("renewal", 0.6),
   ("payment", 0.4), ("confidentiality", 0.5), ("dispute resolution", 0.8)]

/-- Dict lookup with default 0 (`CLAUSE_TYPE_WEIGHTS.get(clause_type, 0.0)`). -/
def typeWeight (ty : String) : ℚ :=
  ((CLAUSE_TYPE_WEIGHTS.find? (fun e => e.1 == ty)).map (·.2)).getD 0

/-- A clause record as consumed by the risk scorer: `id`, `text`, `type`. -/
structure Clause where
  id : ℕ
  text : String
  type : String
deriving Repr, DecidableEq

/-- A per-clause risk record as produced by `_assess_clause_risk`. -/
structure ClauseRisk where
  clause_id : ℕ
  risk_score : ℚ
  risk_level : String
  matched_terms : List String
  keyword_score : ℚ
  similarity_score : ℚ
  length_factor : ℚ
  type_boost : ℚ
deriving Repr, DecidableEq

/-- `risk_detector._assess_clause_risk`. The oracle `sim` stands for the
sentence-transformer pipeline `max(cosine_similarity(encode(text), RISKY_EMBEDDINGS))`;
the code then boosts that value by +0.05 (capped at 1) when it exceeds 0.75. -/
def assess_clause_risk (sim : String → ℚ) (clause : Clause) : ClauseRisk :=
  let text := clause.text
  let text_lower := pyLower text
  let ks := keyword_risk_score text_lower
  let rawSim := sim text
  let max_similarity := if (0.75 : ℚ) < rawSim then min (rawSim + 0.05) 1 else rawSim
  let length_factor := min ((text.length : ℚ) / 300) 2 / 2
  let clause_type := pyLower clause.type
  let tb := typeWeight clause_type
  let type_boost :=
    if clause_type = "liability" ∨ clause_type = "indemnification" then min (tb + 0.1) 1 else tb
  let raw_score := 0.5 * ks.1 + 0.3 * max_similarity + 0.1 * length_factor + 0.1 * type_boost
  { clause_id := clause.id
    risk_score := raw_score
    risk_level := score_to_level raw_score
    matched_terms := ks.2
    keyword_score := ks.1
    similarity_score := max_similarity
    length_factor := length_factor
    type_boost := type_boost }

/-- The per-level counters `risk_counts` of `assess_risks`. -/
structure RiskCounts where
  low : ℕ
  medium : ℕ
  high : ℕ
deriving Repr, DecidableEq

/-- `risk_counts[risk_assessment["risk_level"]] += 1`. The level produced by
`_score_to_level` is always one of the three keys, so the fall-through case is
unreachable in the pipeline. -/
def bumpCount (c : RiskCounts) (level : String) : RiskCounts :=
  if level = "Low" then { c with low := c.low + 1 }
  else if level = "Medium" then { c with medium := c.medium + 1 }
  else if level = "High" then { c with high := c.high + 1 }
  else c

/-- The aggregate summary dict returned by `assess_risks`. -/
structure RiskSummary where
  clause_risks : List ClauseRisk
  contract_risk_score : ℚ
  contract_risk_level : String
  risk_distribution : RiskCounts
  top_risky_clauses : List ClauseRisk
  total_clauses : ℕ
  high_risk_count : ℕ
  medium_risk_count : ℕ
  low_risk_count : ℕ
deriving Repr, DecidableEq

/-- Descending comparison on risk scores, as used by
`sorted(clause_risks, key=lambda x: x["risk_score"], reverse=True)`. -/
def scoreGE (a b : ClauseRisk) : Prop :=
  b.risk_score ≤ a.risk_score

instance : DecidableRel scoreGE :=
  fun a b => inferInstanceAs (Decidable (b.risk_score ≤ a.risk_score))

instance : IsTotal ClauseRisk scoreGE :=
  ⟨fun a b => le_total b.risk_score a.risk_score⟩

instance : IsTrans ClauseRisk scoreGE :=
  ⟨fun _ _ _ hab hbc => le_trans hbc hab⟩

/-- The body of `assess_risks` after the per-clause assessments: the accumulation
loop, the mean, the +0.1 elevation when a High clause exists, the overall level
and the top-5 list. Python's `sorted` is a stable sort and therefore produces
the same list as stable insertion sort with the same key. -/
def assessBody (risks : List ClauseRisk) : RiskSummary :=
  let st := risks.foldl
    (fun (st : List ClauseRisk × ℚ × RiskCounts) r =>
      (st.1 ++ [r], st.2.1 + r.risk_score, bumpCount st.2.2 r.risk_level))
    ([], 0, ⟨0, 0, 0⟩)
  let clause_risks := st.1
  let risk_counts := st.2.2
  let avg0 : ℚ := if risks.isEmpty then 0 else st.2.1 / risks.length
  let avg := if 0 < risk_counts.high then min (avg0 + 0.1) 1 else avg0
  { clause_risks := clause_risks
    contract_risk_score := avg
    contract_risk_level := score_to_level avg
    risk_distribution := risk_counts
    top_risky_clauses := (List.insertionSort scoreGE clause_risks).take 5
    total_clauses := risks.length
    high_risk_count := risk_counts.high
    medium_risk_count := risk_counts.medium
    low_risk_count := risk_counts.low }

/-- `risk_detector.assess_risks` on the happy path: assess every clause, then aggregate. -/
def assess_risks (sim : String → ℚ) (clauses : List Clause) : RiskSummary :=
  assessBody (clauses.map (assess_clause_risk sim))

/-- The `except` branch of `assess_risks`: the well-defined Unknown summary. -/
def unknown_summary : RiskSummary :=
  { clause_risks := []
    contract_risk_score := 0
    contract_risk_level := "Unknown"
    risk_distribution := ⟨0, 0, 0⟩
    top_risky_clauses := []
    total_clauses := 0
    high_risk_count := 0
    medium_risk_count := 0
    low_risk_count := 0 }

/-- Sequence the per-clause assessments, stopping at the first raised exception. -/
def seqExcept : List (Except Unit ClauseRisk) → Except Unit (List ClauseRisk)
  | [] => .ok []
  | .error e :: _ => .error e
  | .ok r :: rest => (seqExcept rest).map (r :: ·)

/-- `risk_detector.assess_risks` with exceptions made explicit: the whole body is
wrapped in `try/except`, so if any per-clause assessment raises, the function
returns `unknown_summary` instead of propagating. -/
def assess_risksE (rs : List (Except Unit ClauseRisk)) : RiskSummary :=
  match seqExcept rs with
  | .error _ => unknown_summary
  | .ok risks => assessBody risks

/-- The specification's reading of how a `matched_terms` entry is built: only the
regex word-boundary markers at the two ends of the stored key are removed, and
the characters of the phrase itself are left intact. -/
def removeWordBoundaryMarkers (s : String) : String :=
  let a : String := if ("\\b").data.isPrefixOf s.data then ⟨s.data.drop 2⟩ else s
  if ("\\b").data.isSuffixOf a.data then ⟨a.data.take (a.data.length - 2)⟩ else a

/-! ### Lemmas about the accumulation loops -/

/-- Closed form of the `_keyword_risk_score` loop: the matched terms are the
stripped keys of the matching entries in lexicon order, the total weight is the
sum of their weights, and the strong-hit counter counts matched weights ≥ 0.8. -/
theorem keywordFold_spec (text : String) (l : List (String × Pat × ℚ))
    (mts : List String) (tw : ℚ) (hw : ℕ) :
    l.foldl (keywordStep text) (mts, tw, hw) =
      (mts ++ (l.filter (fun e => entryMatches e text)).map (fun e => pyStripChars "\\b" e.1),
       tw + ((l.filter (fun e => entryMatches e text)).map (fun e => e.2.2)).sum,
       hw + ((l.filter (fun e => entryMatches e text)).filter
              (fun e => decide ((0.8 : ℚ) ≤ e.2.2))).length) := by
  induction l generalizing mts tw hw with
  | nil => simp
  | cons e rest ih =>
    by_cases hm : entryMatches e text
    · by_cases hv : (0.8 : ℚ) ≤ e.2.2
      · simp [List.foldl_cons, keywordStep, hm, hv, ih, add_assoc, Nat.add_comm]
      · simp [List.foldl_cons, keywordStep, hm, hv, ih, add_assoc]
    · simp [List.foldl_cons, keywordStep, hm, ih]

/-- Closed form of the `assess_risks` accumulation loop. -/
theorem riskFold_spec (l : List ClauseRisk) (cl : List ClauseRisk) (tw : ℚ) (c : RiskCounts) :
    l.foldl
      (fun (st : List ClauseRisk × ℚ × RiskCounts) r =>
        (st.1 ++ [r], st.2.1 + r.risk_score, bumpCount st.2.2 r.risk_level))
      (cl, tw, c) =
      (cl ++ l, tw + (l.map (fun r => r.risk_score)).sum,
       ⟨c.low + l.countP (fun r => r.risk_level == "Low"),
        c.medium + l.countP (fun r => r.risk_level == "Medium"),
        c.high + l.countP (fun r => r.risk_level == "High")⟩) := by
  induction l generalizing cl tw c with
  | nil => simp
  | cons r rest ih =>
    rw [List.foldl_cons, ih]
    simp only [Prod.ext_iff]
    refine ⟨by simp, by simp [add_assoc], ?_⟩
    simp only [bumpCount, List.countP_cons]
    split_ifs with h1 h2 h3 <;>
      simp_all [RiskCounts.mk.injEq] <;> omega

/-- Inserting `x` leaves the sublist of records with any fixed risk score
unchanged except for prepending `x` when its score is that value: every record
skipped by the descending insertion has a strictly larger score. -/
theorem filter_score_orderedInsert (v : ℚ) (x : ClauseRisk) (l : List ClauseRisk) :
    (List.orderedInsert scoreGE x l).filter (fun r => r.risk_score == v) =
      (if x.risk_score == v then [x] else []) ++
        l.filter (fun r => r.risk_score == v) := by
  induction l with
  | nil => simp [List.orderedInsert, List.filter_singleton, beq_iff_eq]
  | cons y ys ih =>
    by_cases hxy : scoreGE x y
    · simp [List.orderedInsert, hxy, List.filter_cons]
      split_ifs <;> simp
    · have hlt : x.risk_score < y.risk_score := lt_of_not_le hxy
      simp only [List.orderedInsert, if_neg hxy, List.filter_cons]
      by_cases hy : y.risk_score = v
      · have hx : ¬ x.risk_score = v := by
          intro h; exact absurd (h.trans hy.symm) (ne_of_lt hlt)
        simp [hy, hx, ih]
      · simp [hy, ih]

/-- Stability of the descending sort used for `top_risky_clauses`: for every
score value, the records holding that score appear in the sorted list exactly
in their original order. -/
theorem filter_score_insertionSort (v : ℚ) (l : List ClauseRisk) :
    (List.insertionSort scoreGE l).filter (fun r => r.risk_score == v) =
      l.filter (fun r => r.risk_score == v) := by
  induction l with
  | nil => rfl
  | cons x xs ih =>
    simp only [List.insertionSort, filter_score_orderedInsert, ih, List.filter_cons]
    split_ifs <;> simp_all

/-- If the input records carry strictly ascending clause ids, then inside the
sorted list any two records with equal scores still carry ascending ids. -/
theorem insertionSort_ties_ascending (rs : List ClauseRisk)
    (h : rs.Pairwise (fun a b => a.clause_id < b.clause_id)) :
    (List.insertionSort scoreGE rs).Pairwise
      (fun a b => a.risk_score = b.risk_score → a.clause_id < b.clause_id) := by
  rw [List.pairwise_iff_forall_sublist]
  intro a b hsub hv
  have hf := hsub.filter (fun r => r.risk_score == a.risk_score)
  rw [filter_score_insertionSort] at hf
  have hab : [a, b].filter (fun r => r.risk_score == a.risk_score) = [a, b] := by
    simp [List.filter_cons, hv]
  rw [hab] at hf
  exact List.pairwise_iff_forall_sublist.mp h (hf.trans (List.filter_sublist rs))

/-! ### Claim theorems for the risk detector -/

/-- C2: for every clause text the keyword score is `min(W/5, 1)` where `W` sums
the weights of the lexicon patterns matching the (lowercased) text, each pattern
counted once, plus a flat +0.1 capped at 1.0 when two or more matched patterns
have individual weight ≥ 0.8. -/
theorem keyword_score_weight_sum (text : String) :
    (keyword_risk_score text).1 =
      (let matched := RISK_KEYWORDS.filter (fun e => entryMatches e text)
       let w : ℚ := (matched.map (fun e => e.2.2)).sum
       let strong := (matched.filter (fun e => decide ((0.8 : ℚ) ≤ e.2.2))).length
       if 2 ≤ strong then min (min (w / 5) 1 + 0.1) 1 else min (w / 5) 1) := by
  unfold keyword_risk_score
  rw [keywordFold_spec]
  simp

/-- C3: the per-clause risk score returned by `_assess_clause_risk` is the
weighted fusion `0.5*keyword + 0.3*similarity + 0.1*length + 0.1*type_boost`
of the four returned sub-scores, and the returned level is Low below 0.3,
Medium below 0.6, and High otherwise. -/
theorem clause_risk_fusion (sim : String → ℚ) (c : Clause) :
    (assess_clause_risk sim c).risk_score =
        0.5 * (assess_clause_risk sim c).keyword_score +
        0.3 * (assess_clause_risk sim c).similarity_score +
        0.1 * (assess_clause_risk sim c).length_factor +
        0.1 * (assess_clause_risk sim c).type_boost ∧
      (assess_clause_risk sim c).risk_level =
        (if (assess_clause_risk sim c).risk_score < 0.3 then "Low"
         else if (assess_clause_risk sim c).risk_score < 0.6 then "Medium"
         else "High") :=
  ⟨rfl, rfl⟩

/-- C1: `assess_risks` computes the contract risk score as the mean of the
per-clause scores (0 for no clauses), adds a flat +0.1 capped at 1.0 exactly
when some clause risk is High, and derives the contract risk level from the
adjusted score. -/
theorem assess_risks_mean_elevation (sim : String → ℚ) (clauses : List Clause) :
    ((assess_risks sim clauses).contract_risk_score =
        (let rs := clauses.map (assess_clause_risk sim)
         let m : ℚ := if clauses.isEmpty then 0
           else (rs.map (fun r => r.risk_score)).sum / clauses.length
         if rs.any (fun r => r.risk_level == "High") then min (m + 0.1) 1 else m)) ∧
      (assess_risks sim clauses).contract_risk_level =
        score_to_level (assess_risks sim clauses).contract_risk_score := by
  have hscore : ∀ risks : List ClauseRisk,
      (assessBody risks).contract_risk_score =
        (if 0 < risks.countP (fun r => r.risk_level == "High")
         then min ((if risks.isEmpty then (0 : ℚ)
             else (risks.map (fun r => r.risk_score)).sum / risks.length) + 0.1) 1
         else (if risks.isEmpty then (0 : ℚ)
             else (risks.map (fun r => r.risk_score)).sum / risks.length)) := by
    intro risks
    unfold assessBody
    rw [riskFold_spec]
    simp
  have hlevel : ∀ risks : List ClauseRisk,
      (assessBody risks).contract_risk_level =
        score_to_level (assessBody risks).contract_risk_score := by
    intro risks
    unfold assessBody
    rw [riskFold_spec]
  refine ⟨?_, hlevel (clauses.map (assess_clause_risk sim))⟩
  rw [assess_risks, hscore]
  have hcond : (0 < (clauses.map (assess_clause_risk sim)).countP
      (fun r => r.risk_level == "High")) =
      ((clauses.map (assess_clause_risk sim)).any (fun r => r.risk_level == "High") = true) := by
    apply propext
    rw [List.countP_pos_iff, List.any_eq_true]
  have hempty : (clauses.map (assess_clause_risk sim)).isEmpty = clauses.isEmpty := by
    cases clauses <;> rfl
  have hlen : (clauses.map (assess_clause_risk sim)).length = clauses.length :=
    List.length_map _ _
  simp only [hcond, hempty, hlen]

/-- C5: `top_risky_clauses` is the 5-element prefix of the stable descending
sort of the per-clause risks: the sort is a permutation, its scores are
descending, records of equal score keep their original relative order, and when
the input carries ascending clause ids, tied records in the top list keep
ascending ids. -/
theorem assess_risks_top_five (sim : String → ℚ) (clauses : List Clause) :
    ((assess_risks sim clauses).top_risky_clauses =
        (List.insertionSort scoreGE (clauses.map (assess_clause_risk sim))).take 5) ∧
      (List.insertionSort scoreGE (clauses.map (assess_clause_risk sim))).Perm
        (clauses.map (assess_clause_risk sim)) ∧
      (List.insertionSort scoreGE (clauses.map (assess_clause_risk sim))).Pairwise
        (fun a b => b.risk_score ≤ a.risk_score) ∧
      (∀ v : ℚ,
        (List.insertionSort scoreGE (clauses.map (assess_clause_risk sim))).filter
            (fun r => r.risk_score == v) =
          (clauses.map (assess_clause_risk sim)).filter (fun r => r.risk_score == v)) ∧
      ((clauses.map (assess_clause_risk sim)).Pairwise
          (fun a b => a.clause_id < b.clause_id) →
        (assess_risks sim clauses).top_risky_clauses.Pairwise
          (fun a b => a.risk_score = b.risk_score → a.clause_id < b.clause_id)) := by
  have htop : (assess_risks sim clauses).top_risky_clauses =
      (List.insertionSort scoreGE (clauses.map (assess_clause_risk sim))).take 5 := by
    rw [assess_risks]
    unfold assessBody
    rw [riskFold_spec]
    simp
  refine ⟨htop, List.perm_insertionSort scoreGE _, List.sorted_insertionSort scoreGE _,
    fun v => filter_score_insertionSort v _, fun h => ?_⟩
  rw [htop]
  exact List.Pairwise.sublist (List.take_sublist 5 _) (insertionSort_ties_ascending _ h)

/-- Witness for C5 at a concrete two-clause input with ascending ids. -/
theorem assess_risks_top_five_witness :
    (([⟨1, "", ""⟩, ⟨2, "", ""⟩] : List Clause).map
        (assess_clause_risk (fun _ => 0))).Pairwise (fun a b => a.clause_id < b.clause_id) ∧
      ((assess_risks (fun _ => 0) [⟨1, "", ""⟩, ⟨2, "", ""⟩]).top_risky_clauses).Pairwise
        (fun a b => a.risk_score = b.risk_score → a.clause_id < b.clause_id) :=
  ⟨by decide,
    (assess_risks_top_five (fun _ => 0) [⟨1, "", ""⟩, ⟨2, "", ""⟩]).2.2.2.2 (by decide)⟩

/-- C9: if any per-clause assessment inside `assess_risks` raises, the function
returns the well-defined Unknown summary — score 0.0, level Unknown, all
counts 0, empty clause-risk and top-risky lists — instead of propagating. -/
theorem assess_risksE_unknown (rs : List (Except Unit ClauseRisk))
    (h : ∃ x ∈ rs, x.toOption = none) :
    assess_risksE rs = unknown_summary ∧
      (assess_risksE rs).contract_risk_score = 0 ∧
      (assess_risksE rs).contract_risk_level = "Unknown" ∧
      (assess_risksE rs).risk_distribution = ⟨0, 0, 0⟩ ∧
      (assess_risksE rs).clause_risks = [] ∧
      (assess_risksE rs).top_risky_clauses = [] ∧
      (assess_risksE rs).total_clauses = 0 := by
  have herr : seqExcept rs = .error () := by
    induction rs with
    | nil => obtain ⟨x, hx, _⟩ := h; exact absurd hx (List.not_mem_nil x)
    | cons x rest ih =>
      match x with
      | .error e => rfl
      | .ok r =>
        obtain ⟨y, hy, hnone⟩ := h
        rcases List.mem_cons.mp hy with rfl | hmem
        · simp [Except.toOption] at hnone
        · rw [seqExcept, ih ⟨y, hmem, hnone⟩]
          rfl
  have : assess_risksE rs = unknown_summary := by
    rw [assess_risksE, herr]
  exact ⟨this, by rw [this]; rfl, by rw [this]; rfl, by rw [this]; rfl,
    by rw [this]; rfl, by rw [this]; rfl, by rw [this]; rfl⟩

/-- Witness for C9 at the concrete input with a single raised assessment. -/
theorem assess_risksE_unknown_witness :
    (∃ x ∈ [(.error () : Except Unit ClauseRisk)], x.toOption = none) ∧
      assess_risksE [.error ()] = unknown_summary :=
  ⟨⟨.error (), List.mem_singleton.mpr rfl, rfl⟩,
    (assess_risksE_unknown [.error ()] ⟨.error (), List.mem_singleton.mpr rfl, rfl⟩).1⟩

/-- C8 (counterexample): on the clause text "breach" the matched pattern is
`\x5cbbreach\x5cb`, whose phrase starts with the letter b; Python `str.strip`
removes every leading and trailing backslash or letter b, so the recorded term
is "reach", not the intact phrase "breach" that removing only the boundary
markers would leave. -/
theorem matched_terms_strip_counterexample :
    (keyword_risk_score "breach").2 = ["reach"] ∧
      removeWordBoundaryMarkers "\\bbreach\\b" = "breach" ∧
      ("reach" : String) ≠ "breach" := by
  refine ⟨?_, by decide, by decide⟩
  decide

/-- C8 (amended): every `matched_terms` entry is the lexicon key passed through
Python `str.strip("\x5cb")`, which removes all leading and trailing characters
from the set backslash, letter b — including letters b belonging to the phrase
itself. -/
theorem matched_terms_stripped_keys (text : String) :
    (keyword_risk_score text).2 =
      (RISK_KEYWORDS.filter (fun e => entryMatches e text)).map
        (fun e => pyStripChars "\\b" e.1) := by
  unfold keyword_risk_score
  rw [keywordFold_spec]
  simp

/-! ### The clause classifier (`clause_extractor.py`) -/

/-- Helper for `countOcc`: scans the haystack one character at a time; the
counter `skip` records how many characters of a just-found occurrence remain to
be stepped over, so occurrences are counted without overlap. -/
def countOccAux (needle : List Char) : List Char → ℕ → ℕ
  | [], _ => 0
  | _ :: rest, Nat.succ k => countOccAux needle rest k
  | l@(_ :: rest), 0 =>
    if needle ≠ [] ∧ needle.isPrefixOf l then
      countOccAux needle rest (needle.length - 1) + 1
    else
      countOccAux needle rest 0

/-- Python `str.count`: number of non-overlapping occurrences of `needle`,
scanning left to right (the classifier only counts non-empty keywords). -/
def countOcc (needle hay : List Char) : ℕ :=
  countOccAux needle hay 0

/-- Python `"x".replace("_", " ")`: with a one-character pattern, `str.replace`
substitutes character-wise. -/
def pyReplaceUnderscore (s : String) : String :=
  ⟨s.data.map (fun c => if c = '_' then ' ' else c)⟩

/-- Python `str.title()` (ASCII): uppercase every letter that follows a
non-letter, lowercase every other letter. -/
def pyTitleGo : Bool → List Char → List Char
  | _, [] => []
  | prev, c :: cs =>
    (if c.isAlpha then (if prev then c.toLower else c.toUpper) else c) :: pyTitleGo c.isAlpha cs

/-- Python `str.title()`. -/
def pyTitle (s : String) : String :=
  ⟨pyTitleGo false s.data⟩

/-- `CLAUSE_KEYWORDS` of `clause_extractor.py`, in dict insertion order. -/
def CLAUSE_KEYWORDS : List (String × List String) := [
  ("termination", ["terminate", "termination", "end agreement", "expire", "dissolution", "cancel"]),
  ("payment", ["payment", "fee", "cost", "invoice", "billing", "remuneration", "compensation"]),
  ("liability", ["liability", "liable", "damages", "indemnify", "indemnification", "harm"]),
  ("confidentiality", ["confidential", "non-disclosure", "proprietary", "trade secret", "nda"]),
  ("intellectual_property", ["intellectual property", "ip", "patent", "trademark", "copyright", "license"]),
  ("force_majeure", ["force majeure", "act of god", "unforeseeable", "beyond control"]),
  ("governing_law", ["governing law", "jurisdiction", "applicable law", "courts", "venue"]),
  ("warranty", ["warranty", "guarantee", "warrants", "represents", "assurance"]),
  ("dispute_resolution", ["dispute", "arbitration", "mediation", "litigation", "resolution"]),
  ("renewal", ["renewal", "renew", "extend", "automatic", "term"])]

/-- `TEMPLATE_CLAUSES` of `clause_extractor.py` (same keys, same order). -/
def TEMPLATE_CLAUSES : List (String × String) := [
  ("termination", "This agreement may be terminated by either party with thirty days written notice."),
  ("payment", "Payment shall be due within thirty days of invoice receipt."),
  ("liability", "Neither party shall be liable for indirect or consequential damages."),
  ("confidentiality", "All confidential information shall be kept strictly confidential."),
  ("intellectual_property", "All intellectual property rights remain with the original owner."),
  ("force_majeure", "Neither party shall be liable for delays caused by force majeure events."),
  ("governing_law", "This agreement shall be governed by the laws of the specified jurisdiction."),
  ("warranty", "The services are provided with no warranties express or implied."),
  ("dispute_resolution", "Any disputes shall be resolved through binding arbitration."),
  ("renewal", "This agreement shall automatically renew for successive one-year terms.")]

/-- The per-category keyword scores of `classify_clause`:
`sum(text_lower.count(k) for k in keywords) / len(keywords)`. -/
def keywordScores (text : String) : List (String × ℚ) :=
  CLAUSE_KEYWORDS.map (fun e =>
    (e.1, ((e.2.map (fun k => (countOcc k.data (pyLower text).data : ℚ))).sum) / (e.2.length : ℚ)))

/-- The per-category semantic similarities: the oracle `sem text template`
stands for `cosine_similarity(encode(text), encode(template))`. -/
def semScores (sem : String → String → ℚ) (text : String) : List (String × ℚ) :=
  TEMPLATE_CLAUSES.map (fun e => (e.1, sem text e.2))

/-- Python `max(scores, key=scores.get)` over an association list in dict
order: keeps the first entry whose value is maximal. -/
def pyMaxBy (l : List (String × ℚ)) : String × ℚ :=
  match l with
  | [] => ("", 0)
  | x :: xs => xs.foldl (fun best y => if best.2 < y.2 then y else best) x

/-- Round-half-to-even to an integer (Python `round` tie-breaking). -/
def roundHalfEven (q : ℚ) : ℤ :=
  if q - ⌊q⌋ < 1 / 2 then ⌊q⌋
  else if 1 / 2 < q - ⌊q⌋ then ⌊q⌋ + 1
  else if ⌊q⌋ % 2 = 0 then ⌊q⌋ else ⌊q⌋ + 1

/-- Python `round(x, 3)` on the exact rational value. -/
def round3 (q : ℚ) : ℚ :=
  (roundHalfEven (q * 1000) : ℚ) / 1000

/-- `clause_extractor.classify_clause`: fuse the best keyword category and the
best semantic category by the source's precedence rule, format the chosen
category name (underscores to spaces, title case), and report
`round(max(kw_score, sem_score), 3)` as the confidence. -/
def classify_clause (sem : String → String → ℚ) (text : String) : String × ℚ :=
  let bk := pyMaxBy (keywordScores text)
  let bs := pyMaxBy (semScores sem text)
  let final_type :=
    if 0.3 < bk.2 ∧ 0.65 < bs.2 then (if bs.2 ≤ bk.2 then bk.1 else bs.1)
    else if 0.7 < bs.2 then bs.1
    else bk.1
  (pyTitle (pyReplaceUnderscore final_type), round3 (max bk.2 bs.2))

/-- The ten-category closed set of the classifier. -/
def CATEGORY_SET : List String :=
  ["termination", "payment", "liability", "confidentiality", "intellectual_property",
   "force_majeure", "governing_law", "warranty", "dispute_resolution", "renewal"]

/-- The fold inside `pyMaxBy` returns the seed or a list element. -/
theorem foldl_max_mem (xs : List (String × ℚ)) (x : String × ℚ) :
    xs.foldl (fun best y => if best.2 < y.2 then y else best) x ∈ x :: xs := by
  induction xs generalizing x with
  | nil => exact List.mem_singleton.mpr rfl
  | cons y ys ih =>
    rw [List.foldl_cons]
    by_cases hxy : x.2 < y.2
    · rw [if_pos hxy]
      rcases List.mem_cons.mp (ih y) with h | h
      · rw [h]
        exact List.mem_cons_of_mem x (List.mem_cons_self y ys)
      · exact List.mem_cons_of_mem x (List.mem_cons_of_mem y h)
    · rw [if_neg hxy]
      rcases List.mem_cons.mp (ih x) with h | h
      · rw [h]
        exact List.mem_cons_self x (y :: ys)
      · exact List.mem_cons_of_mem x (List.mem_cons_of_mem y h)

/-- `pyMaxBy` of a non-empty list is an element of the list. -/
theorem pyMaxBy_mem (l : List (String × ℚ)) (h : l ≠ []) : pyMaxBy l ∈ l := by
  match l with
  | [] => exact absurd rfl h
  | x :: xs => exact foldl_max_mem xs x

/-- The key of `pyMaxBy` over a mapped association list is one of the keys. -/
theorem pyMaxBy_fst_mem {α : Type} (f : α → String × ℚ) (l : List α) (h : l ≠ []) :
    (pyMaxBy (l.map f)).1 ∈ l.map (fun a => (f a).1) := by
  have hne : l.map f ≠ [] := by
    intro hc
    exact h (List.map_eq_nil_iff.mp hc)
  obtain ⟨e, he, hfe⟩ := List.mem_map.mp (pyMaxBy_mem (l.map f) hne)
  rw [← hfe]
  exact List.mem_map_of_mem _ he

/-- Every per-category keyword score is non-negative. -/
theorem keywordScores_nonneg (text : String) :
    ∀ p ∈ keywordScores text, 0 ≤ p.2 := by
  intro p hp
  obtain ⟨e, _, rfl⟩ := List.mem_map.mp hp
  refine div_nonneg (List.sum_nonneg ?_) (Nat.cast_nonneg _)
  intro q hq
  obtain ⟨k, _, rfl⟩ := List.mem_map.mp hq
  exact Nat.cast_nonneg _

/-- Rounding to three decimals of a rational at least 2 stays above 1. -/
theorem one_lt_round3_of_two_le (q : ℚ) (h : (2 : ℚ) ≤ q) : (1 : ℚ) < round3 q := by
  have hq : (2000 : ℚ) ≤ q * 1000 := by linarith
  have hfl : (2000 : ℤ) ≤ ⌊q * 1000⌋ := Int.le_floor.mpr (by push_cast; linarith)
  have hr : (2000 : ℤ) ≤ roundHalfEven (q * 1000) := by
    unfold roundHalfEven
    split_ifs <;> omega
  have hr' : (2000 : ℚ) ≤ (roundHalfEven (q * 1000) : ℚ) := by exact_mod_cast hr
  unfold round3
  linarith

/-- Rounding preserves non-negativity. -/
theorem round3_nonneg (q : ℚ) (h : 0 ≤ q) : 0 ≤ round3 q := by
  have hq : (0 : ℚ) ≤ q * 1000 := by positivity
  have hfl : (0 : ℤ) ≤ ⌊q * 1000⌋ := Int.floor_nonneg.mpr hq
  have : (0 : ℤ) ≤ roundHalfEven (q * 1000) := by
    unfold roundHalfEven
    split_ifs <;> omega
  unfold round3
  have : (0 : ℚ) ≤ (roundHalfEven (q * 1000) : ℚ) := Int.cast_nonneg.mpr this
  positivity

/-- C7: `classify_clause` always returns a category from the fixed closed
ten-category set (in the code's display formatting) or the residual
"unclassified", and a confidence ≥ 0. -/
theorem classify_closed_set (sem : String → String → ℚ) (text : String) :
    ((classify_clause sem text).1 ∈
        CATEGORY_SET.map (fun c => pyTitle (pyReplaceUnderscore c)) ∨
      (classify_clause sem text).1 = "unclassified") ∧
      0 ≤ (classify_clause sem text).2 := by
  constructor
  · left
    have hbk : (pyMaxBy (keywordScores text)).1 ∈ CATEGORY_SET := by
      have := pyMaxBy_fst_mem
        (fun e => (e.1,
          ((e.2.map (fun k => (countOcc k.data (pyLower text).data : ℚ))).sum) / (e.2.length : ℚ)))
        CLAUSE_KEYWORDS (by simp [CLAUSE_KEYWORDS])
      exact this
    have hbs : (pyMaxBy (semScores sem text)).1 ∈ CATEGORY_SET := by
      have := pyMaxBy_fst_mem (fun e => (e.1, sem text e.2)) TEMPLATE_CLAUSES
        (by simp [TEMPLATE_CLAUSES])
      exact this
    have hfinal :
        (if 0.3 < (pyMaxBy (keywordScores text)).2 ∧ 0.65 < (pyMaxBy (semScores sem text)).2
         then (if (pyMaxBy (semScores sem text)).2 ≤ (pyMaxBy (keywordScores text)).2
               then (pyMaxBy (keywordScores text)).1 else (pyMaxBy (semScores sem text)).1)
         else if 0.7 < (pyMaxBy (semScores sem text)).2 then (pyMaxBy (semScores sem text)).1
         else (pyMaxBy (keywordScores text)).1) ∈ CATEGORY_SET := by
      split_ifs
      · exact hbk
      · exact hbs
      · exact hbs
      · exact hbk
    exact List.mem_map_of_mem _ hfinal
  · have hne : keywordScores text ≠ [] := by simp [keywordScores, CLAUSE_KEYWORDS]
    have hkw : 0 ≤ (pyMaxBy (keywordScores text)).2 :=
      keywordScores_nonneg text _ (pyMaxBy_mem (keywordScores text) hne)
    exact round3_nonneg _ (le_trans hkw (le_max_left _ _))

/-- C4: the classifier's category follows the precedence — keyword-vs-semantic
winner by raw score (ties to keyword) when `kw > 0.3` and `sem > 0.65`, else
the semantic category when `sem > 0.7`, else the keyword category — and the
confidence is `max(kw_score, sem_score)` rounded to 3 decimals, which is not
clamped to [0,1] (it exceeds 1 for repetitive text). -/
theorem classify_precedence (sem : String → String → ℚ) (text : String) :
    ((classify_clause sem text).1 =
        pyTitle (pyReplaceUnderscore
          (if 0.3 < (pyMaxBy (keywordScores text)).2 ∧
              0.65 < (pyMaxBy (semScores sem text)).2 then
            (if (pyMaxBy (semScores sem text)).2 ≤ (pyMaxBy (keywordScores text)).2
             then (pyMaxBy (keywordScores text)).1
             else (pyMaxBy (semScores sem text)).1)
           else if 0.7 < (pyMaxBy (semScores sem text)).2 then
             (pyMaxBy (semScores sem text)).1
           else (pyMaxBy (keywordScores text)).1))) ∧
      ((classify_clause sem text).2 =
        round3 (max (pyMaxBy (keywordScores text)).2 (pyMaxBy (semScores sem text)).2)) ∧
      (∃ t : String, ∃ s : String → String → ℚ, 1 < (classify_clause s t).2) :=
  ⟨rfl, rfl, by
    refine ⟨"", fun _ _ => 2, ?_⟩
    show (1 : ℚ) < round3
      (max (pyMaxBy (keywordScores "")).2 (pyMaxBy (semScores (fun _ _ => 2) "")).2)
    apply one_lt_round3_of_two_le
    have hmem := pyMaxBy_mem (semScores (fun _ _ => 2) "")
      (by simp [semScores, TEMPLATE_CLAUSES])
    obtain ⟨e, _, hfe⟩ := List.mem_map.mp hmem
    have h2 : (pyMaxBy (semScores (fun _ _ => 2) "")).2 = 2 := by rw [← hfe]
    rw [← h2]
    exact le_max_right _ _⟩

/-! ### The clause segmenter (`clause_extractor.py`)

`_split_into_clauses` first splits the text on the heading regex; the resulting
fragment list is a parameter of the embedding (`parts`), as is the spaCy
sentence sequence used by the fallback (`sents`): both the heading split and
the sentence tokenizer produce a list of strings that the code then filters
and regroups, and the claims quantify over these fragments. `re.split` on the
empty string returns `[""]` and spaCy yields no sentences for it. -/

/-- The structural phase of `_split_into_clauses`: keep each fragment whose
stripped form is longer than 40 characters. -/
def structuralClauses (parts : List String) : List String :=
  parts.foldl
    (fun clauses part =>
      let chunk := pyStrip part
      if 40 < chunk.length then clauses ++ [chunk] else clauses)
    []

/-- The sentence-accumulation fallback of `_split_into_clauses`: buffer
sentences, flush (joined by spaces, stripped) once the buffered character sum
exceeds 250, and flush any remainder. -/
def fallbackClauses (sents : List String) : List String :=
  let st := sents.foldl
    (fun (st : List String × List String) sent =>
      let buffer := st.2 ++ [sent]
      if 250 < (buffer.map String.length).sum then
        (st.1 ++ [pyStrip (String.intercalate " " buffer)], [])
      else (st.1, buffer))
    ([], [])
  if st.2.isEmpty then st.1 else st.1 ++ [pyStrip (String.intercalate " " st.2)]

/-- `clause_extractor._split_into_clauses`: the structural split, falling back
to sentence grouping when it yields no usable fragment. -/
def split_into_clauses (parts sents : List String) : List String :=
  let clauses := structuralClauses parts
  if clauses.isEmpty then fallbackClauses sents else clauses

/-- A named-entity span; `stop` models the source's `end` offset (a reserved
word in Lean). -/
structure Entity where
  text : String
  label : String
  start : ℕ
  stop : ℕ
deriving Repr, DecidableEq

/-- The entity allow-list of `clause_extractor.extract_entities`. -/
def allowed_labels : List String :=
  ["ORG", "PERSON", "DATE", "MONEY", "GPE", "TIME", "PERCENT", "QUANTITY", "LAW"]

/-- `clause_extractor.extract_entities`: the spaCy span tagger is the oracle
`tag`; the code keeps the spans whose label is allow-listed, in order. -/
def extract_entities (tag : String → List Entity) (text : String) : List Entity :=
  (tag text).filter (fun ent => allowed_labels.contains ent.label)

/-- Python `str.isupper` (ASCII): at least one letter, and no lowercase letter. -/
def pyIsUpper (s : String) : Bool :=
  s.data.any Char.isAlpha && s.data.all (fun c => !c.isAlpha || c.isUpper)

/-- `clause_extractor._extract_title_from_text`: an early all-uppercase or
colon-bearing line of length > 5 (colons removed, stripped), else the text up
to the first sentence-terminal character. -/
def extract_title_from_text (text : String) : Option String :=
  match (text.splitOn "\n").take 2 |>.find?
      (fun line => 5 < line.length && (pyIsUpper line || line.data.contains ':')) with
  | some line => some (pyStrip ⟨line.data.filter (fun c => c ≠ ':')⟩)
  | none => some (pyStrip ⟨text.data.takeWhile (fun c => !(c = '.' || c = '!' || c = '?'))⟩)

/-- A clause record as produced by `clause_extractor.extract_clauses`. -/
structure ExtractedClause where
  id : ℕ
  title : Option String
  text : String
  type : String
  confidence : ℚ
  entities : List Entity
deriving Repr, DecidableEq

/-- `clause_extractor.extract_clauses`: segment, then classify, tag and number
the surviving clauses starting at id 1. -/
def extract_clauses (sem : String → String → ℚ) (tag : String → List Entity)
    (parts sents : List String) : List ExtractedClause :=
  let raw := split_into_clauses parts sents
  (List.enumFrom 1 raw).map (fun p =>
    { id := p.1
      title := extract_title_from_text p.2
      text := p.2
      type := (classify_clause sem p.2).1
      confidence := (classify_clause sem p.2).2
      entities := extract_entities tag p.2 })

/-- Every clause kept by the structural split has stripped length > 40. -/
theorem structuralClauses_long (parts : List String) :
    ∀ c ∈ structuralClauses parts, 40 < c.length := by
  suffices h : ∀ (ps : List String) (acc : List String) c,
      c ∈ ps.foldl
        (fun clauses part =>
          let chunk := pyStrip part
          if 40 < chunk.length then clauses ++ [chunk] else clauses) acc →
      c ∈ acc ∨ 40 < c.length by
    intro c hc
    rcases h parts [] c hc with h0 | h0
    · exact absurd h0 (List.not_mem_nil c)
    · exact h0
  intro ps
  induction ps with
  | nil => intro acc c hc; exact Or.inl hc
  | cons p rest ih =>
    intro acc c hc
    rw [List.foldl_cons] at hc
    rcases ih _ c hc with h0 | h0
    · by_cases hlen : 40 < (pyStrip p).length
      · rw [if_pos hlen] at h0
        rcases List.mem_append.mp h0 with h1 | h1
        · exact Or.inl h1
        · exact Or.inr (List.mem_singleton.mp h1 ▸ hlen)
      · rw [if_neg hlen] at h0
        exact Or.inl h0
    · exact Or.inr h0

/-- C6: segmentation is total and filters short fragments — the empty text
yields no clauses (and no error), every fragment whose stripped form has at
most 40 characters is dropped by the structural split, whenever the structural
split is used every extracted clause text is longer than 40 characters, and
clause ids enumerate exactly the surviving clauses starting at 1. -/
theorem segmentation_total_and_filtered :
    (∀ (sem : String → String → ℚ) (tag : String → List Entity),
        extract_clauses sem tag [""] [] = []) ∧
      (∀ parts : List String, ∀ c ∈ structuralClauses parts, 40 < c.length) ∧
      (∀ (parts : List String) (part : String), part ∈ parts →
        (pyStrip part).length ≤ 40 → pyStrip part ∉ structuralClauses parts) ∧
      (∀ (sem : String → String → ℚ) (tag : String → List Entity)
          (parts sents : List String), structuralClauses parts ≠ [] →
        ∀ c ∈ extract_clauses sem tag parts sents, 40 < c.text.length) ∧
      (∀ (sem : String → String → ℚ) (tag : String → List Entity)
          (parts sents : List String),
        (extract_clauses sem tag parts sents).map (fun c => c.id) =
          List.range' 1 (split_into_clauses parts sents).length) := by
  refine ⟨fun _ _ => rfl, structuralClauses_long, ?_, ?_, ?_⟩
  · intro parts part _ hshort hmem
    exact absurd (structuralClauses_long parts _ hmem) (by omega)
  · intro sem tag parts sents hne c hc
    have hsplit : split_into_clauses parts sents = structuralClauses parts := by
      unfold split_into_clauses
      rw [if_neg (by simpa [List.isEmpty_iff] using hne)]
    obtain ⟨p, hp, hpc⟩ := List.mem_map.mp hc
    have htext : c.text = p.2 := by rw [← hpc]
    have hsnd : p.2 ∈ split_into_clauses parts sents := by
      have := List.mem_map_of_mem Prod.snd hp
      rwa [List.enumFrom_map_snd] at this
    rw [htext]
    exact structuralClauses_long parts _ (hsplit ▸ hsnd)
  · intro sem tag parts sents
    unfold extract_clauses
    rw [List.map_map]
    exact List.enumFrom_map_fst 1 (split_into_clauses parts sents)

/-- Witness for C6 at a concrete fragment list: the 5-character fragment is
dropped by the structural split. -/
theorem segmentation_filter_witness :
    ("short" ∈
        (["short", "This clause body is long enough to exceed the forty character threshold."] :
          List String) ∧
      (pyStrip "short").length ≤ 40) ∧
      pyStrip "short" ∉ structuralClauses
        ["short", "This clause body is long enough to exceed the forty character threshold."] :=
  ⟨⟨by decide, by decide⟩,
    segmentation_total_and_filtered.2.2.1
      ["short", "This clause body is long enough to exceed the forty character threshold."]
      "short" (by decide) (by decide)⟩

/-! ### Chunking utilities (`utils.py`)

`utils.extract_clauses` splits on the compiled `clause_pattern` regex
`(?P<numbering>(?:\d+\.){1,3}|\d+\)|[A-Z]\)|Section\s+\d+)[ \t]+` (IGNORECASE).
The evaluator below implements exactly this pattern: candidate lengths of the
captured group are produced in the regex's backtracking order and the first
one followed by at least one space or tab wins. -/

namespace Utils

/-- Length of the leading digit run (`\d+` greedy). -/
def digitsRun (cs : List Char) : ℕ :=
  (cs.takeWhile Char.isDigit).length

/-- Length of the leading space-or-tab run (`[ \t]+` greedy). -/
def wsRun (cs : List Char) : ℕ :=
  (cs.takeWhile (fun c => c = ' ' || c = '\t')).length

/-- Length of the leading Python-whitespace run (`\s+` greedy). -/
def pySpaceRun (cs : List Char) : ℕ :=
  (cs.takeWhile pyIsSpace).length

/-- One `\d+\.` unit at the head: digits then a dot. -/
def numDotUnit (cs : List Char) : Option ℕ :=
  let d := digitsRun cs
  if 0 < d ∧ (cs.drop d).head? = some '.' then some (d + 1) else none

/-- Candidate group lengths for `(?:\d+\.){1,3}`, greedy repetition first. -/
def alt1Candidates (cs : List Char) : List ℕ :=
  match numDotUnit cs with
  | none => []
  | some u1 =>
    match numDotUnit (cs.drop u1) with
    | none => [u1]
    | some u2 =>
      match numDotUnit (cs.drop (u1 + u2)) with
      | none => [u1 + u2, u1]
      | some u3 => [u1 + u2 + u3, u1 + u2, u1]

/-- Candidate group lengths for `\d+\)`. -/
def alt2Candidates (cs : List Char) : List ℕ :=
  let d := digitsRun cs
  if 0 < d ∧ (cs.drop d).head? = some ')' then [d + 1] else []

/-- Candidate group lengths for `[A-Z]\)` under IGNORECASE. -/
def alt3Candidates (cs : List Char) : List ℕ :=
  match cs with
  | c :: ')' :: _ => if c.isAlpha then [2] else []
  | _ => []

/-- Candidate group lengths for `Section\s+\d+` under IGNORECASE. -/
def alt4Candidates (cs : List Char) : List ℕ :=
  if ("section").data.isPrefixOf (cs.map Char.toLower) then
    let w := pySpaceRun (cs.drop 7)
    let d := digitsRun (cs.drop (7 + w))
    if 0 < w ∧ 0 < d then [7 + w + d] else []
  else []

/-- `clause_pattern.match` at the head of `cs`: the first candidate group (in
alternation/backtracking order) followed by `[ \t]+`; returns the group length
and the total consumed length. -/
def clausePatternMatch (cs : List Char) : Option (ℕ × ℕ) :=
  (alt1Candidates cs ++ alt2Candidates cs ++ alt3Candidates cs ++ alt4Candidates cs).findSome?
    (fun g =>
      let w := wsRun (cs.drop g)
      if 0 < w then some (g, g + w) else none)

/-- Scanning loop of `re.split(clause_pattern, text)`: emit the pending text
and the captured numbering group at each match, skip the consumed characters,
otherwise advance one character. The fuel argument only bounds the recursion;
`text.length + 1` always suffices because every step consumes at least one
character. -/
def splitGo (fuel : ℕ) (cs : List Char) (acc : List Char) : List String :=
  match fuel with
  | 0 => [⟨acc.reverse⟩]
  | fuel + 1 =>
    match cs with
    | [] => [⟨acc.reverse⟩]
    | c :: rest =>
      match clausePatternMatch (c :: rest) with
      | some (g, t) =>
        (⟨acc.reverse⟩ : String) :: (⟨(c :: rest).take g⟩ : String) ::
          splitGo fuel ((c :: rest).drop t) []
      | none => splitGo fuel rest (c :: acc)

/-- `re.split(clause_pattern, text)`: text fragments alternating with the
captured numbering groups. -/
def clauseSplit (text : String) : List String :=
  splitGo (text.length + 1) text.data []

/-- A clause record of `utils.extract_clauses`. -/
structure UtilClause where
  id : ℕ
  numbering : Option String
  text : String
deriving Repr, DecidableEq

/-- `utils.extract_clauses`: walk the split parts, flushing the accumulated
text as a clause whenever a part matches the numbering pattern, and flushing
the remainder at the end. -/
def extract_clauses (text : String) : List UtilClause :=
  let parts := clauseSplit text
  let st := parts.foldl
    (fun (st : List UtilClause × String × ℕ × Option String) part =>
      let (clauses, temp_text, clause_id, numbering) := st
      if (clausePatternMatch part.data).isSome then
        if pyStrip temp_text ≠ "" then
          (clauses ++ [{ id := clause_id, numbering := numbering, text := pyStrip temp_text }],
            "", clause_id + 1, some (pyStrip part))
        else (clauses, temp_text, clause_id, some (pyStrip part))
      else (clauses, temp_text ++ part, clause_id, numbering))
    ([], "", 1, none)
  if pyStrip st.2.1 ≠ "" then
    st.1 ++ [{ id := st.2.2.1, numbering := st.2.2.2, text := pyStrip st.2.1 }]
  else st.1

/-- `utils.chunk_text`: pack clauses into chunks of at most `max_chars`
characters. When a clause overflows an empty buffer the source appends only
`clause_text[:max_chars]` and re-assigns the loop-local variable to the tail,
which is never read again — the remainder is dropped. -/
def chunk_text (text : String) (max_chars : ℕ) : List String :=
  let clauses := extract_clauses text
  let st := clauses.foldl
    (fun (st : List String × String) clause =>
      let (chunks, current_chunk) := st
      let clause_text := clause.text
      if max_chars < current_chunk.length + clause_text.length + 2 then
        if current_chunk ≠ "" then (chunks ++ [pyStrip current_chunk], clause_text)
        else (chunks ++ [clause_text.take max_chars], "")
      else
        (chunks, if current_chunk ≠ "" then current_chunk ++ "\n\n" ++ clause_text
          else clause_text))
    ([], "")
  if st.2 ≠ "" then st.1 ++ [pyStrip st.2] else st.1

end Utils

/-- C10: `chunk_text` can lose text — on this input the single extracted clause
is longer than `max_chars` and is reached with an empty buffer, so the function
emits only its first `max_chars` characters and the concatenated chunks are
strictly shorter than the clause text. -/
theorem chunk_text_drops_tail :
    ∃ (text : String) (m : ℕ) (c : Utils.UtilClause),
      Utils.extract_clauses text = [c] ∧
        m < c.text.length ∧
        Utils.chunk_text text m = [c.text.take m] ∧
        ((Utils.chunk_text text m).map String.length).sum < c.text.length :=
  ⟨"aaaaaaaaaa", 5, ⟨1, none, "aaaaaaaaaa"⟩, by decide, by decide, by decide, by decide⟩

end LawBrief
